import Mathlib

/-
Verification of the film-dashboard data pipeline (src/app.py) against its
natural-language specification.

The program is a Streamlit dashboard: it loads a CSV into a pandas
DataFrame, normalizes column names, applies a genre filter and a year-range
filter, derives a censor-group column, and renders five charts from the
filtered view.  This file shallowly embeds the data-transformation pipeline:

  * a DataFrame is a `List Row` together with a `Schema` of column-presence
    flags (pandas column absence is what the guards `'c' in df.columns`
    test; cell-level missing values, pandas NaN, are `Option` fields);
  * Python strings are Lean `String`s; the Python string primitives used by
    the program (`str.strip`, `str.lower`, `str.upper`, single-character
    `str.replace`, `float(...)`) are embedded at the `List Char` level
    (ASCII case mapping; the default Python whitespace set restricted to
    the ASCII whitespace characters);
  * floats are embedded as `ℚ` (the program only ever parses decimal
    numerals and averages them; `float("nan")` produced from a missing cell
    is observationally absent downstream - `dropna` removes it - and is
    modelled as `none`);
  * `Series.nlargest(10, ...)` with its default `keep="first"` policy is,
    per the pandas implementation, a stable (mergesort) descending sort
    truncated to 10; it is embedded as a stable insertion sort;
  * `groupby('year')['rating'].mean()` with default `sort=True` is one mean
    per distinct key, keys sorted ascending;
  * the unconditional access `df_filtered['censor']` on line 69 raises
    `KeyError` when the censor column is absent; the pipeline is therefore
    embedded as `Except`-valued, erring exactly when that access fails.
-/

namespace FilmApp

/-! ## Python string primitives -/

/-- Python `str.strip` whitespace test (ASCII part of Python's default
whitespace set: space, tab, newline, carriage return, vertical tab,
form feed). -/
def pyIsSpace (c : Char) : Bool :=
  c.toNat = 32 || c.toNat = 9 || c.toNat = 10 || c.toNat = 13 ||
  c.toNat = 11 || c.toNat = 12

/-- Python `str.strip()` on a character list: drop whitespace from both
ends. -/
def pyStripList (l : List Char) : List Char :=
  ((l.dropWhile pyIsSpace).reverse.dropWhile pyIsSpace).reverse

/-- Python `str.strip()`. -/
def pyStrip (s : String) : String :=
  ⟨pyStripList s.data⟩

/-- Python `str.lower` on one character (ASCII range). -/
def lowerChar (c : Char) : Char :=
  if 65 ≤ c.toNat ∧ c.toNat ≤ 90 then Char.ofNat (c.toNat + 32) else c

/-- Python `str.upper` on one character (ASCII range). -/
def upperChar (c : Char) : Char :=
  if 97 ≤ c.toNat ∧ c.toNat ≤ 122 then Char.ofNat (c.toNat - 32) else c

/-- Python `str.lower()`. -/
def pyLower (s : String) : String :=
  ⟨s.data.map lowerChar⟩

/-- Python `str.upper()`. -/
def pyUpper (s : String) : String :=
  ⟨s.data.map upperChar⟩

/-- Replacement step of `str.replace(" ", "_")` on one character. -/
def spaceToUnderscore (c : Char) : Char :=
  if c = ' ' then '_' else c

/-- Column-name normalization, app.py line 21:
`df.columns.str.strip().str.lower().str.replace(" ", "_")`. -/
def normalizeName (s : String) : String :=
  ⟨((pyStripList s.data).map lowerChar).map spaceToUnderscore⟩

/-- Normalization of the whole column list (the `.columns` assignment is
elementwise over the index of names). -/
def normalizeColumns (cols : List String) : List String :=
  cols.map normalizeName

/-! ## Character-level facts -/

theorem toNat_ofNat_small {n : Nat} (h : n < 0xd800) : (Char.ofNat n).toNat = n := by
  simp only [Char.ofNat, Char.isValidCharNat]
  rw [dif_pos (Or.inl h)]
  rfl

theorem lowerChar_toNat (c : Char) :
    (lowerChar c).toNat = if 65 ≤ c.toNat ∧ c.toNat ≤ 90 then c.toNat + 32 else c.toNat := by
  unfold lowerChar
  split
  case isTrue h => rw [toNat_ofNat_small (by omega)]
  case isFalse h => rfl

theorem lowerChar_idem (c : Char) : lowerChar (lowerChar c) = lowerChar c := by
  unfold lowerChar
  split
  case isTrue h =>
    rw [if_neg]
    rw [toNat_ofNat_small (by omega)]
    omega
  case isFalse h => rfl

theorem pyIsSpace_lowerChar (c : Char) (h : pyIsSpace c = false) :
    pyIsSpace (lowerChar c) = false := by
  simp only [pyIsSpace, Bool.or_eq_false_iff, decide_eq_false_iff_not] at h
  simp only [pyIsSpace, lowerChar_toNat, Bool.or_eq_false_iff, decide_eq_false_iff_not]
  split
  case isTrue h2 => omega
  case isFalse h2 => omega

theorem spaceToUnderscore_toNat (c : Char) :
    (spaceToUnderscore c).toNat = if c = ' ' then 95 else c.toNat := by
  unfold spaceToUnderscore
  split <;> rfl

theorem pyIsSpace_spaceToUnderscore (c : Char) (h : pyIsSpace c = false) :
    pyIsSpace (spaceToUnderscore c) = false := by
  unfold spaceToUnderscore
  split
  case isTrue hc => subst hc; simp [pyIsSpace] at h
  case isFalse hc => exact h

theorem spaceToUnderscore_ne_space (c : Char) : spaceToUnderscore c ≠ ' ' := by
  unfold spaceToUnderscore
  split
  case isTrue h => decide
  case isFalse h => exact h

theorem lowerChar_of_not_upper (c : Char) (h : ¬ (65 ≤ c.toNat ∧ c.toNat ≤ 90)) :
    lowerChar c = c := by
  unfold lowerChar
  exact if_neg h

theorem lowerChar_spaceToUnderscore_of_lower (c : Char) :
    lowerChar (spaceToUnderscore (lowerChar c)) = spaceToUnderscore (lowerChar c) := by
  apply lowerChar_of_not_upper
  rw [spaceToUnderscore_toNat]
  split
  case isTrue h => omega
  case isFalse h =>
    rw [lowerChar_toNat]
    split <;> omega

theorem spaceToUnderscore_idem (c : Char) :
    spaceToUnderscore (spaceToUnderscore c) = spaceToUnderscore c := by
  unfold spaceToUnderscore
  by_cases h : c = ' '
  · subst h; rfl
  · rw [if_neg h, if_neg h]

/-! ## Facts about `pyStripList` -/

/-- Absence of leading whitespace, phrased through `head?`. -/
def NoLeadWS (l : List Char) : Prop :=
  ∀ c, l.head? = some c → pyIsSpace c = false

theorem dropWhile_head_false (p : Char → Bool) :
    ∀ l : List Char, ∀ c, (l.dropWhile p).head? = some c → p c = false := by
  intro l
  induction l with
  | nil => intro c h; simp at h
  | cons x t ih =>
    intro c h
    by_cases hx : p x
    · rw [List.dropWhile_cons_of_pos hx] at h
      exact ih c h
    · rw [List.dropWhile_cons_of_neg hx] at h
      simp at h
      subst h
      exact Bool.eq_false_iff.mpr hx

theorem dropWhile_eq_self_of_head (p : Char → Bool) (l : List Char)
    (h : ∀ c, l.head? = some c → p c = false) : l.dropWhile p = l := by
  cases l with
  | nil => rfl
  | cons x t =>
    have hx : p x = false := h x rfl
    rw [List.dropWhile_cons_of_neg (by simp [hx])]

theorem getLast?_dropWhile (p : Char → Bool) :
    ∀ l : List Char, l.dropWhile p ≠ [] → (l.dropWhile p).getLast? = l.getLast? := by
  intro l
  induction l with
  | nil => intro h; simp at h
  | cons x t ih =>
    intro h
    by_cases hx : p x
    · rw [List.dropWhile_cons_of_pos hx] at h ⊢
      rw [ih h]
      cases t with
      | nil => simp at h
      | cons y u => exact (List.getLast?_cons_cons).symm
    · rw [List.dropWhile_cons_of_neg hx]

theorem pyStripList_noLead (l : List Char) : NoLeadWS (pyStripList l) := by
  intro c h
  unfold pyStripList at h
  rw [List.head?_reverse] at h
  set A := l.dropWhile pyIsSpace with hA
  set B := A.reverse.dropWhile pyIsSpace with hB
  have hBne : B ≠ [] := by
    intro hnil
    rw [hnil] at h
    simp at h
  rw [getLast?_dropWhile pyIsSpace A.reverse hBne] at h
  rw [List.getLast?_reverse] at h
  exact dropWhile_head_false pyIsSpace l c h

theorem pyStripList_noTrail (l : List Char) : NoLeadWS (pyStripList l).reverse := by
  intro c h
  unfold pyStripList at h
  rw [List.reverse_reverse] at h
  exact dropWhile_head_false pyIsSpace _ c h

theorem pyStripList_eq_self (l : List Char) (h1 : NoLeadWS l) (h2 : NoLeadWS l.reverse) :
    pyStripList l = l := by
  unfold pyStripList
  rw [dropWhile_eq_self_of_head pyIsSpace l h1]
  rw [dropWhile_eq_self_of_head pyIsSpace l.reverse h2]
  exact List.reverse_reverse l

theorem noLead_map (f : Char → Char) (hf : ∀ c, pyIsSpace c = false → pyIsSpace (f c) = false)
    (l : List Char) (h : NoLeadWS l) : NoLeadWS (l.map f) := by
  intro c hc
  rw [List.head?_map] at hc
  cases hl : l.head? with
  | none => rw [hl] at hc; simp at hc
  | some d =>
    rw [hl] at hc
    simp at hc
    subst hc
    exact hf d (h d hl)

theorem norm_maps_idem : ∀ X : List Char,
    ((((X.map lowerChar).map spaceToUnderscore).map lowerChar).map spaceToUnderscore)
      = (X.map lowerChar).map spaceToUnderscore := by
  intro X
  induction X with
  | nil => rfl
  | cons c l ih =>
    simp only [List.map_cons]
    rw [lowerChar_spaceToUnderscore_of_lower c, spaceToUnderscore_idem]
    rw [List.map_map, List.map_map, List.map_map] at ih ⊢
    rw [ih]

theorem normalizeName_idem (s : String) :
    normalizeName (normalizeName s) = normalizeName s := by
  have hnoLead : NoLeadWS (normalizeName s).data := by
    apply noLead_map spaceToUnderscore pyIsSpace_spaceToUnderscore
    apply noLead_map lowerChar pyIsSpace_lowerChar
    exact pyStripList_noLead s.data
  have hnoTrail : NoLeadWS (normalizeName s).data.reverse := by
    show NoLeadWS (((pyStripList s.data).map lowerChar).map spaceToUnderscore).reverse
    rw [← List.map_reverse, ← List.map_reverse]
    apply noLead_map spaceToUnderscore pyIsSpace_spaceToUnderscore
    apply noLead_map lowerChar pyIsSpace_lowerChar
    exact pyStripList_noTrail s.data
  have hstrip : pyStripList (normalizeName s).data = (normalizeName s).data :=
    pyStripList_eq_self _ hnoLead hnoTrail
  show String.mk (((pyStripList (normalizeName s).data).map lowerChar).map spaceToUnderscore)
      = normalizeName s
  rw [hstrip]
  show String.mk ((((((pyStripList s.data).map lowerChar).map spaceToUnderscore)).map
      lowerChar).map spaceToUnderscore) = normalizeName s
  rw [norm_maps_idem (pyStripList s.data)]
  rfl

/-- C9: column-name normalization (strip, lower-case, spaces to
underscores; app.py line 21) is idempotent: applying it twice to any list
of column names yields the same result as applying it once. -/
theorem normalizeColumns_idempotent (cols : List String) :
    normalizeColumns (normalizeColumns cols) = normalizeColumns cols := by
  unfold normalizeColumns
  rw [List.map_map]
  induction cols with
  | nil => rfl
  | cons s l ih =>
    simp only [List.map_cons, Function.comp_apply]
    rw [normalizeName_idem s]
    rw [ih]

/-! ## Stable insertion sort

The pandas operations the program uses are order-producing: `list.sort()`
on the genre options, `nlargest(10, 'rating')` (which the pandas
implementation computes with a stable `mergesort`/`argsort` and the default
`keep="first"` policy), and the ascending key order of `groupby`.  They are
embedded through a stable insertion sort parameterized by a boolean
comparison: an element is inserted in front of the first already-placed
element it may precede, so earlier input elements stay in front of equal
later ones. -/

def insertBy {α : Type} (le : α → α → Bool) (x : α) : List α → List α
  | [] => [x]
  | y :: l => if le x y then x :: y :: l else y :: insertBy le x l

def sortBy {α : Type} (le : α → α → Bool) : List α → List α
  | [] => []
  | x :: l => insertBy le x (sortBy le l)

theorem insertBy_perm {α : Type} (le : α → α → Bool) (x : α) :
    ∀ l : List α, (insertBy le x l).Perm (x :: l) := by
  intro l
  induction l with
  | nil => exact List.Perm.refl _
  | cons y t ih =>
    unfold insertBy
    by_cases h : le x y
    · rw [if_pos h]
    · rw [if_neg h]
      exact (ih.cons y).trans (List.Perm.swap x y t)

theorem sortBy_perm {α : Type} (le : α → α → Bool) :
    ∀ l : List α, (sortBy le l).Perm l := by
  intro l
  induction l with
  | nil => exact List.Perm.refl _
  | cons x t ih =>
    unfold sortBy
    exact (insertBy_perm le x (sortBy le t)).trans (ih.cons x)

theorem mem_insertBy {α : Type} (le : α → α → Bool) (x a : α) (l : List α) :
    a ∈ insertBy le x l ↔ a = x ∨ a ∈ l := by
  rw [(insertBy_perm le x l).mem_iff]
  simp

theorem mem_sortBy {α : Type} (le : α → α → Bool) (a : α) (l : List α) :
    a ∈ sortBy le l ↔ a ∈ l :=
  (sortBy_perm le l).mem_iff

theorem length_sortBy {α : Type} (le : α → α → Bool) (l : List α) :
    (sortBy le l).length = l.length :=
  (sortBy_perm le l).length_eq

theorem pairwise_insertBy {α : Type} (le : α → α → Bool)
    (htot : ∀ a b, le a b = true ∨ le b a = true)
    (htrans : ∀ a b c, le a b = true → le b c = true → le a c = true)
    (x : α) :
    ∀ l : List α, l.Pairwise (fun a b => le a b = true) →
      (insertBy le x l).Pairwise (fun a b => le a b = true) := by
  intro l
  induction l with
  | nil => intro _; simp [insertBy]
  | cons y t ih =>
    intro hl
    rw [List.pairwise_cons] at hl
    unfold insertBy
    by_cases h : le x y
    · rw [if_pos h]
      rw [List.pairwise_cons]
      constructor
      · intro a ha
        rcases List.mem_cons.mp ha with rfl | ha
        · exact h
        · exact htrans x y a h (hl.1 a ha)
      · rw [List.pairwise_cons]
        exact hl
    · rw [if_neg h]
      rw [List.pairwise_cons]
      constructor
      · intro a ha
        rcases (mem_insertBy le x a t).mp ha with rfl | ha
        · rcases htot a y with hay | hya
          · exact absurd hay (by simpa using h)
          · exact hya
        · exact hl.1 a ha
      · exact ih hl.2

theorem sortBy_pairwise {α : Type} (le : α → α → Bool)
    (htot : ∀ a b, le a b = true ∨ le b a = true)
    (htrans : ∀ a b c, le a b = true → le b c = true → le a c = true) :
    ∀ l : List α, (sortBy le l).Pairwise (fun a b => le a b = true) := by
  intro l
  induction l with
  | nil => simp [sortBy]
  | cons x t ih =>
    unfold sortBy
    exact pairwise_insertBy le htot htrans x (sortBy le t) ih

theorem filter_insertBy_pos {α : Type} (le : α → α → Bool) (p : α → Bool) (x : α)
    (hx : p x = true) (hcut : ∀ y, le x y = false → p y = false) :
    ∀ l : List α, (insertBy le x l).filter p = x :: l.filter p := by
  intro l
  induction l with
  | nil => simp [insertBy, hx]
  | cons y t ih =>
    unfold insertBy
    by_cases h : le x y
    · rw [if_pos h]
      rw [List.filter_cons_of_pos hx]
    · rw [if_neg h]
      have hy : p y = false := hcut y (Bool.eq_false_iff.mpr h)
      rw [List.filter_cons_of_neg (by simp [hy]), List.filter_cons_of_neg (by simp [hy])]
      exact ih

theorem filter_insertBy_neg {α : Type} (le : α → α → Bool) (p : α → Bool) (x : α)
    (hx : p x = false) :
    ∀ l : List α, (insertBy le x l).filter p = l.filter p := by
  intro l
  induction l with
  | nil => simp [insertBy, hx]
  | cons y t ih =>
    unfold insertBy
    by_cases h : le x y
    · rw [if_pos h]
      rw [List.filter_cons_of_neg (by simp [hx])]
    · rw [if_neg h]
      by_cases hy : p y
      · rw [List.filter_cons_of_pos hy, List.filter_cons_of_pos hy, ih]
      · rw [List.filter_cons_of_neg (by simpa using hy),
            List.filter_cons_of_neg (by simpa using hy), ih]

/-- Stability of `sortBy`: any selection of pairwise "tied" elements (a
boolean test `p` that no element placed after a `p`-element by the
comparison can satisfy) comes out of the sort in its original relative
order. -/
theorem sortBy_filter_stable {α : Type} (le : α → α → Bool) (p : α → Bool)
    (hcut : ∀ x y, p x = true → le x y = false → p y = false) :
    ∀ l : List α, (sortBy le l).filter p = l.filter p := by
  intro l
  induction l with
  | nil => rfl
  | cons x t ih =>
    unfold sortBy
    by_cases hx : p x
    · rw [filter_insertBy_pos le p x hx (fun y => hcut x y hx), ih,
          List.filter_cons_of_pos hx]
    · rw [filter_insertBy_neg le p x (by simpa using hx), ih,
          List.filter_cons_of_neg (by simpa using hx)]

/-! ## First-occurrence deduplication

Embeds `pandas.Series.unique`, which returns the distinct values in order
of first appearance (a seen-set scan). -/

def uniqueFirstAux {α : Type} [DecidableEq α] (seen : List α) : List α → List α
  | [] => []
  | x :: t =>
    if x ∈ seen then uniqueFirstAux seen t else x :: uniqueFirstAux (x :: seen) t

def uniqueFirst {α : Type} [DecidableEq α] (l : List α) : List α :=
  uniqueFirstAux [] l

theorem mem_uniqueFirstAux {α : Type} [DecidableEq α] (a : α) :
    ∀ (l seen : List α), a ∈ uniqueFirstAux seen l ↔ a ∈ l ∧ a ∉ seen := by
  intro l
  induction l with
  | nil => intro seen; simp [uniqueFirstAux]
  | cons x t ih =>
    intro seen
    unfold uniqueFirstAux
    by_cases hx : x ∈ seen
    · rw [if_pos hx, ih]
      constructor
      · rintro ⟨ha, hs⟩
        exact ⟨List.mem_cons_of_mem x ha, hs⟩
      · rintro ⟨ha, hs⟩
        rcases List.mem_cons.mp ha with rfl | ha
        · exact absurd hx hs
        · exact ⟨ha, hs⟩
    · rw [if_neg hx]
      rw [List.mem_cons, ih]
      constructor
      · rintro (rfl | ⟨ha, hs⟩)
        · exact ⟨List.mem_cons_self a t, hx⟩
        · refine ⟨List.mem_cons_of_mem x ha, fun hc => hs (List.mem_cons_of_mem x hc)⟩
      · rintro ⟨ha, hs⟩
        rcases List.mem_cons.mp ha with rfl | ha
        · exact Or.inl rfl
        · by_cases hax : a = x
          · exact Or.inl hax
          · exact Or.inr ⟨ha, by simp [hax, hs]⟩

theorem mem_uniqueFirst {α : Type} [DecidableEq α] (a : α) (l : List α) :
    a ∈ uniqueFirst l ↔ a ∈ l := by
  unfold uniqueFirst
  rw [mem_uniqueFirstAux]
  simp

theorem nodup_uniqueFirstAux {α : Type} [DecidableEq α] :
    ∀ (l seen : List α), (uniqueFirstAux seen l).Nodup := by
  intro l
  induction l with
  | nil => intro seen; simp [uniqueFirstAux]
  | cons x t ih =>
    intro seen
    unfold uniqueFirstAux
    by_cases hx : x ∈ seen
    · rw [if_pos hx]; exact ih seen
    · rw [if_neg hx]
      rw [List.nodup_cons]
      refine ⟨fun hc => ?_, ih (x :: seen)⟩
      rcases (mem_uniqueFirstAux x t (x :: seen)).mp hc with ⟨_, hs⟩
      exact hs (List.mem_cons_self x seen)

theorem nodup_uniqueFirst {α : Type} [DecidableEq α] (l : List α) :
    (uniqueFirst l).Nodup :=
  nodup_uniqueFirstAux l []

/-! ## Data model

One `Row` per film record; `Option` fields embed cell-level missing values
(pandas NaN).  The `Schema` flags embed column presence: the program tests
`'col' in df.columns` before touching a column, and a flag set to `false`
means the corresponding column is absent from the CSV.  (When a flag is
false, the corresponding `Row` field carries no meaning.) -/

structure Row where
  movie_title : String
  main_genre : Option String
  year : Int
  rating : ℚ
  runtime_mins : Option ℚ
  total_gross : Option String
  censor : Option String
deriving DecidableEq

structure Schema where
  main_genre : Bool
  year : Bool
  rating : Bool
  movie_title : Bool
  runtime_mins : Bool
  total_gross : Bool
  censor : Bool
deriving DecidableEq

/-- Sidebar selection: the genre selectbox value (the literal `"All"`
sentinel or one of the observed genres) and the two ends of the year
slider. -/
structure FilterState where
  genre : String
  lo : Int
  hi : Int
deriving DecidableEq

/-! ## Field normalizer (app.py lines 56 to 67, `clean_censor`) -/

/-- Embedding of `clean_censor`: `pd.isna(x)` is the `none` case; otherwise
`x.strip().upper()` followed by the three list-membership tests. -/
def clean_censor (x : Option String) : String :=
  match x with
  | none => "Unknown"
  | some s =>
    let y := pyUpper (pyStrip s)
    if y ∈ (["U", "G"] : List String) then "All Ages"
    else if y ∈ (["UA", "PG", "PG-13"] : List String) then "Parental Guidance"
    else if y ∈ (["A", "R"] : List String) then "Adults Only"
    else "Unknown"

/-! ## Python `float` literal parsing

Embeds `float(x)` on an already-stripped string, for the decimal forms
(optional sign, digits with an optional single dot, optional exponent).
Python additionally accepts `inf`, `nan` and underscore digit separators;
those never arise from the gross column and are treated as parse failures
here (a `nan` result is in any case removed by the `dropna` that follows
the parse in app.py line 126, so it is observationally absent). -/

def digitsVal (l : List Char) : Nat :=
  l.foldl (fun a c => 10 * a + (c.toNat - 48)) 0

def isDigits (l : List Char) : Bool :=
  !l.isEmpty && l.all Char.isDigit

def parseSign : List Char → Int × List Char
  | '-' :: l => (-1, l)
  | '+' :: l => (1, l)
  | l => (1, l)

/-- Digits of the mantissa with the fractional length: accepts `123`,
`123.4`, `1.`, `.5`; rejects an empty digit string or two dots. -/
def parseMantissa (l : List Char) : Option (Nat × Nat) :=
  match l.splitOn '.' with
  | [ip] => if isDigits ip then some (digitsVal ip, 0) else none
  | [ip, fp] =>
    if !(ip ++ fp).isEmpty && (ip ++ fp).all Char.isDigit then
      some (digitsVal (ip ++ fp), fp.length)
    else none
  | _ => none

def parseExp (l : List Char) : Option Int :=
  let sr := parseSign l
  if isDigits sr.2 then some (sr.1 * digitsVal sr.2) else none

def pyFloat (l0 : List Char) : Option ℚ :=
  let l := l0.map (fun c => if c = 'E' then 'e' else c)
  let sm := parseSign l
  match sm.2.splitOn 'e' with
  | [man] =>
    (parseMantissa man).map fun vf =>
      ((sm.1 * vf.1 : ℤ) : ℚ) / ((10 : ℚ) ^ vf.2)
  | [man, ex] =>
    match parseMantissa man, parseExp ex with
    | some vf, some e =>
      if 0 ≤ e then
        some ((((sm.1 * vf.1) * 10 ^ e.toNat : ℤ) : ℚ) / ((10 : ℚ) ^ vf.2))
      else
        some (((sm.1 * vf.1 : ℤ) : ℚ) / ((10 : ℚ) ^ (vf.2 + (-e).toNat)))
    | _, _ => none
  | _ => none

/-- Embedding of `parse_gross` (app.py lines 115 to 121):
`str(x).replace("$", "").replace("M", "").replace(",", "").strip()` then
`float(...)`, with `None` on failure.  A missing cell (`str(nan)` parses to
`nan`, which the subsequent `dropna` removes) is modelled as `none`. -/
def parse_gross (x : Option String) : Option ℚ :=
  match x with
  | none => none
  | some s =>
    pyFloat (pyStripList (((s.data.filter (fun c => c ≠ '$')).filter
      (fun c => c ≠ 'M')).filter (fun c => c ≠ ',')))

/-- Round-half-to-even on the integers, the policy of `numpy.round` used by
`Series.round`. -/
def roundHalfEven (x : ℚ) : ℤ :=
  if x - ⌊x⌋ < 1 / 2 then ⌊x⌋
  else if 1 / 2 < x - ⌊x⌋ then ⌊x⌋ + 1
  else if ⌊x⌋ % 2 = 0 then ⌊x⌋ else ⌊x⌋ + 1

/-- Embedding of `.round(1)` (app.py line 129). -/
def round1 (q : ℚ) : ℚ :=
  (roundHalfEven (10 * q) : ℚ) / 10

/-! ## Filter engine (app.py lines 31 to 51) -/

/-- Genre stage, lines 36 to 39: `"All"` passes every row (`df.copy()`),
anything else keeps the rows whose `main_genre` cell equals the selection
(a NaN cell compares unequal in pandas, hence `none ≠ some sel`). -/
def genreFilter (df : List Row) (sel : String) : List Row :=
  if sel = "All" then df else df.filter (fun r => r.main_genre = some sel)

/-- Year stage, lines 48 to 51: inclusive range test. -/
def yearFilter (df : List Row) (lo hi : Int) : List Row :=
  df.filter (fun r => lo ≤ r.year && r.year ≤ hi)

/-- The whole filter pipeline: each stage runs only when its column exists
(lines 31 and 44); otherwise the stage is skipped. -/
def applyFilters (sc : Schema) (df : List Row) (fs : FilterState) : List Row :=
  let d1 := if sc.main_genre then genreFilter df fs.genre else df
  if sc.year then yearFilter d1 fs.lo fs.hi else d1

/-- Genre options, lines 32 to 34: distinct non-NaN genres
(`dropna().unique()`), `sort()`ed, with `"All"` inserted at position 0. -/
def main_genres (df : List Row) : List String :=
  "All" :: sortBy (fun a b => decide (a ≤ b)) (uniqueFirst (df.filterMap (fun r => r.main_genre)))

/-! ## Derived-metric extractors (app.py lines 69 to 149) -/

/-- Comparison backing `nlargest(10, 'rating')`: row `a` may precede row
`b` in the descending output when its rating is at least the rating of
`b`; with the stable `sortBy` this is exactly the pandas `keep="first"`
policy (ties resolved toward the earlier row). -/
def ratingDescLe (a b : Row) : Bool :=
  decide (b.rating ≤ a.rating)

/-- Embedding of `top10 = df_filtered.nlargest(10, 'rating')` (line 74). -/
def top10 (df : List Row) : List Row :=
  (sortBy ratingDescLe df).take 10

/-- Arithmetic mean of a list of rationals (`Series.mean`). -/
def mean (l : List ℚ) : ℚ :=
  l.sum / l.length

/-- Distinct years of the view, ascending: the group keys of
`groupby('year')` (default `sort=True`). -/
def year_keys (df : List Row) : List Int :=
  sortBy (fun a b => decide (a ≤ b)) (uniqueFirst (df.map (fun r => r.year)))

/-- Embedding of `df_filtered.groupby('year')['rating'].mean()` (line 84):
one point per distinct year, keys ascending, value the mean rating of the
rows of that year. -/
def year_avg (df : List Row) : List (Int × ℚ) :=
  (year_keys df).map fun y =>
    (y, mean ((df.filter (fun r => r.year = y)).map (fun r => r.rating)))

/-- Embedding of chart 4's data (lines 123 to 129): parse the gross of
every row, drop the rows whose parse failed (`dropna`), round the
survivors to one decimal, and pair with the rating. -/
def grossSample (df : List Row) : List (ℚ × ℚ) :=
  df.filterMap fun r => (parse_gross r.total_gross).map fun g => (r.rating, round1 g)

/-! ## The pipeline (filters, censor-group derivation, five charts) -/

/-- Data handed to the five chart renderings: `none` means the guard of
the chart failed and the chart was skipped. -/
structure Charts where
  censor_groups : List String
  top10_rows : Option (List Row)
  year_avg_points : Option (List (Int × ℚ))
  runtime_sample : Option (List ℚ)
  gross_points : Option (List (ℚ × ℚ))
  censor_box : Option (List (String × ℚ))
deriving DecidableEq

/-- The per-interaction pipeline of app.py lines 31 to 149: apply the two
filters, derive `censor_group` (line 69 - an unguarded column access that
raises `KeyError` when the censor column is absent, embedded as the error
case), then build each chart's data under its own guard (column presence
and `len(df_filtered) > 0`). -/
def pipeline (sc : Schema) (df : List Row) (fs : FilterState) : Except String Charts :=
  let dff := applyFilters sc df fs
  if sc.censor then
    Except.ok
      { censor_groups := dff.map fun r => clean_censor r.censor
        top10_rows :=
          if sc.rating && sc.movie_title && decide (0 < dff.length) then some (top10 dff)
          else none
        year_avg_points :=
          if sc.year && sc.rating && decide (0 < dff.length) then some (year_avg dff)
          else none
        runtime_sample :=
          if sc.runtime_mins && decide (0 < dff.length) then
            some (dff.filterMap fun r => r.runtime_mins)
          else none
        gross_points :=
          if sc.rating && sc.total_gross && decide (0 < dff.length) then some (grossSample dff)
          else none
        censor_box :=
          if sc.rating && decide (0 < dff.length) then
            some (dff.map fun r => (clean_censor r.censor, r.rating))
          else none }
  else Except.error "KeyError: censor"

/-! ## Claim theorems: censor classification -/

theorem clean_censor_some (s : String) :
    clean_censor (some s) =
      (if pyUpper (pyStrip s) ∈ (["U", "G"] : List String) then "All Ages"
       else if pyUpper (pyStrip s) ∈ (["UA", "PG", "PG-13"] : List String) then
         "Parental Guidance"
       else if pyUpper (pyStrip s) ∈ (["A", "R"] : List String) then "Adults Only"
       else "Unknown") := rfl

/-- C4: the censor classification returns "Unknown" on an absent value and
otherwise classifies the trimmed, upper-cased value by exact membership in
the three code sets, everything else (the empty string included) falling to
"Unknown"; the spec's three examples hold. -/
theorem clean_censor_spec :
    clean_censor none = "Unknown" ∧
    (∀ s : String,
      (clean_censor (some s) = "All Ages" ↔
        pyUpper (pyStrip s) ∈ (["U", "G"] : List String)) ∧
      (clean_censor (some s) = "Parental Guidance" ↔
        pyUpper (pyStrip s) ∈ (["UA", "PG", "PG-13"] : List String)) ∧
      (clean_censor (some s) = "Adults Only" ↔
        pyUpper (pyStrip s) ∈ (["A", "R"] : List String)) ∧
      (clean_censor (some s) = "Unknown" ↔
        pyUpper (pyStrip s) ∉ (["U", "G", "UA", "PG", "PG-13", "A", "R"] : List String))) ∧
    clean_censor (some "pg-13") = "Parental Guidance" ∧
    clean_censor (some "X") = "Unknown" := by
  refine ⟨rfl, fun s => ?_, by decide, by decide⟩
  rw [clean_censor_some s]
  by_cases h1 : pyUpper (pyStrip s) ∈ (["U", "G"] : List String)
  · rw [if_pos h1]
    simp only [List.mem_cons, List.mem_singleton, List.not_mem_nil, or_false] at h1
    rcases h1 with h1 | h1 <;> rw [h1] <;> refine ⟨by decide, by decide, by decide, by decide⟩
  · rw [if_neg h1]
    by_cases h2 : pyUpper (pyStrip s) ∈ (["UA", "PG", "PG-13"] : List String)
    · rw [if_pos h2]
      simp only [List.mem_cons, List.mem_singleton, List.not_mem_nil, or_false] at h2
      rcases h2 with h2 | h2 | h2 <;> rw [h2] <;>
        refine ⟨by decide, by decide, by decide, by decide⟩
    · rw [if_neg h2]
      by_cases h3 : pyUpper (pyStrip s) ∈ (["A", "R"] : List String)
      · rw [if_pos h3]
        simp only [List.mem_cons, List.mem_singleton, List.not_mem_nil, or_false] at h3
        rcases h3 with h3 | h3 <;> rw [h3] <;>
          refine ⟨by decide, by decide, by decide, by decide⟩
      · rw [if_neg h3]
        refine ⟨⟨fun hc => absurd hc (by decide), fun hc => absurd hc h1⟩,
                ⟨fun hc => absurd hc (by decide), fun hc => absurd hc h2⟩,
                ⟨fun hc => absurd hc (by decide), fun hc => absurd hc h3⟩,
                ⟨fun _ => ?_, fun _ => rfl⟩⟩
        intro hc
        simp only [List.mem_cons, List.mem_singleton, List.not_mem_nil, or_false] at h1 h2 h3 hc
        tauto

/-- C5: the censor classification is total over every possible cell value
(absent or any string): it always lands in the four Censor Group values. -/
theorem clean_censor_total (x : Option String) :
    clean_censor x ∈ (["All Ages", "Parental Guidance", "Adults Only", "Unknown"] : List String) := by
  match x with
  | none => simp [clean_censor]
  | some s =>
    rw [clean_censor_some s]
    split_ifs <;> simp

/-! ## Claim theorems: currency parsing -/

/-- C3: `parse_gross` removes every `$`, `M` and `,` character (the
sequential single-character `replace` calls amount to one filter against
the three characters), trims whitespace, and parses the rest as a float;
every parse failure (including the absent cell) yields the absent result;
the spec's three examples hold. -/
theorem parse_gross_spec :
    (∀ s : String, parse_gross (some s)
        = pyFloat (pyStripList (s.data.filter
            (fun c => decide (c ∉ (['$', 'M', ','] : List Char)))))) ∧
    parse_gross none = none ∧
    parse_gross (some "$123.4M") = some (123.4 : ℚ) ∧
    parse_gross (some "N/A") = none ∧
    parse_gross (some "$1,234M") = some (1234.0 : ℚ) := by
  refine ⟨fun s => ?_, rfl, ?_, rfl, ?_⟩
  · show pyFloat (pyStripList (((s.data.filter fun c => c ≠ '$').filter
        fun c => c ≠ 'M').filter fun c => c ≠ ',')) = _
    apply congrArg fun t => pyFloat (pyStripList t)
    rw [List.filter_filter, List.filter_filter]
    apply List.filter_congr
    intro c _
    by_cases h1 : c = '$' <;> by_cases h2 : c = 'M' <;> by_cases h3 : c = ',' <;>
      simp [h1, h2, h3]
  · have h : parse_gross (some "$123.4M")
        = some (((1 * (1234 : ℕ) : ℤ) : ℚ) / (10 : ℚ) ^ (1 : ℕ)) := rfl
    rw [h]; norm_num
  · have h : parse_gross (some "$1,234M")
        = some (((1 * (1234 : ℕ) : ℤ) : ℚ) / (10 : ℚ) ^ (0 : ℕ)) := rfl
    rw [h]; norm_num

/-! ## Claim theorems: filter engine -/

theorem genreFilter_sublist (df : List Row) (sel : String) :
    (genreFilter df sel).Sublist df := by
  unfold genreFilter
  split
  · exact List.Sublist.refl df
  · exact List.filter_sublist df

theorem mem_genreFilter_eq (df : List Row) (sel : String) (r : Row)
    (h : r ∈ genreFilter df sel) (hne : sel ≠ "All") : r.main_genre = some sel := by
  unfold genreFilter at h
  rw [if_neg hne] at h
  have := List.mem_filter.mp h
  simpa using this.2

theorem yearFilter_sublist (df : List Row) (lo hi : Int) :
    (yearFilter df lo hi).Sublist df :=
  List.filter_sublist df

theorem mem_yearFilter (df : List Row) (lo hi : Int) (r : Row)
    (h : r ∈ yearFilter df lo hi) : r ∈ df ∧ lo ≤ r.year ∧ r.year ≤ hi := by
  unfold yearFilter at h
  have := List.mem_filter.mp h
  refine ⟨this.1, ?_⟩
  simpa using this.2

/-- C1: for every table, schema and filter state, the filtered view is a
subset of the input rows in the original relative order (a sublist), and
every row of it satisfies each active predicate: genre equality when the
genre filter is active and not the "All" sentinel, and the inclusive year
bounds when the year filter is active. -/
theorem applyFilters_spec (sc : Schema) (df : List Row) (fs : FilterState) :
    (applyFilters sc df fs).Sublist df ∧
    ∀ r ∈ applyFilters sc df fs,
      (sc.main_genre = true → fs.genre ≠ "All" → r.main_genre = some fs.genre) ∧
      (sc.year = true → fs.lo ≤ r.year ∧ r.year ≤ fs.hi) := by
  unfold applyFilters
  by_cases hg : sc.main_genre = true <;> by_cases hy : sc.year = true
  · rw [if_pos hg, if_pos hy]
    refine ⟨(yearFilter_sublist _ _ _).trans (genreFilter_sublist df fs.genre), ?_⟩
    intro r hr
    have hm := mem_yearFilter _ _ _ r hr
    exact ⟨fun _ hne => mem_genreFilter_eq df fs.genre r hm.1 hne, fun _ => hm.2⟩
  · rw [if_pos hg, if_neg hy]
    refine ⟨genreFilter_sublist df fs.genre, ?_⟩
    intro r hr
    exact ⟨fun _ hne => mem_genreFilter_eq df fs.genre r hr hne, fun hc => absurd hc hy⟩
  · rw [if_neg hg, if_pos hy]
    refine ⟨yearFilter_sublist df fs.lo fs.hi, ?_⟩
    intro r hr
    have hm := mem_yearFilter _ _ _ r hr
    exact ⟨fun hc => absurd hc hg, fun _ => hm.2⟩
  · rw [if_neg hg, if_neg hy]
    refine ⟨List.Sublist.refl df, ?_⟩
    intro r hr
    exact ⟨fun hc => absurd hc hg, fun hc => absurd hc hy⟩

theorem applyFilters_spec_witness :
    (applyFilters ⟨true, true, true, true, true, true, true⟩
        [⟨"A", some "Drama", 2001, 8, none, none, none⟩,
         ⟨"B", some "Action", 2002, 7, none, none, none⟩]
        ⟨"Drama", 2000, 2005⟩).Sublist
      [⟨"A", some "Drama", 2001, 8, none, none, none⟩,
       ⟨"B", some "Action", 2002, 7, none, none, none⟩] ∧
    (⟨"A", some "Drama", 2001, 8, none, none, none⟩ : Row).main_genre = some "Drama" ∧
    (2000 : ℤ) ≤ 2001 ∧ (2001 : ℤ) ≤ 2005 := by
  have h := applyFilters_spec ⟨true, true, true, true, true, true, true⟩
    [⟨"A", some "Drama", 2001, 8, none, none, none⟩,
     ⟨"B", some "Action", 2002, 7, none, none, none⟩] ⟨"Drama", 2000, 2005⟩
  have hmem : (⟨"A", some "Drama", 2001, 8, none, none, none⟩ : Row)
      ∈ applyFilters ⟨true, true, true, true, true, true, true⟩
        [⟨"A", some "Drama", 2001, 8, none, none, none⟩,
         ⟨"B", some "Action", 2002, 7, none, none, none⟩] ⟨"Drama", 2000, 2005⟩ := by
    decide
  exact ⟨h.1, (h.2 _ hmem).1 rfl (by decide), (h.2 _ hmem).2 rfl⟩

/-- C10: the genre selectbox options are the "All" sentinel followed by
exactly the distinct non-absent genre values in ascending order; choosing
a non-sentinel option excludes every row with an absent genre cell, while
the sentinel keeps the table unchanged (absent-genre rows included). -/
theorem main_genres_spec (df : List Row) :
    (main_genres df).head? = some "All" ∧
    List.Pairwise (fun a b : String => a ≤ b) (main_genres df).tail ∧
    (main_genres df).tail.Nodup ∧
    (∀ g, g ∈ (main_genres df).tail ↔ ∃ r ∈ df, r.main_genre = some g) ∧
    (∀ g, g ≠ "All" → ∀ r ∈ genreFilter df g, r.main_genre ≠ none) ∧
    genreFilter df "All" = df := by
  refine ⟨rfl, ?_, ?_, ?_, ?_, rfl⟩
  · show List.Pairwise _ (sortBy _ (uniqueFirst (df.filterMap fun r => r.main_genre)))
    have hp := sortBy_pairwise (fun a b : String => decide (a ≤ b))
      (fun a b => by
        rcases le_total a b with h | h
        · exact Or.inl (decide_eq_true h)
        · exact Or.inr (decide_eq_true h))
      (fun a b c hab hbc => decide_eq_true (le_trans (of_decide_eq_true hab) (of_decide_eq_true hbc)))
      (uniqueFirst (df.filterMap fun r => r.main_genre))
    exact hp.imp fun h => of_decide_eq_true h
  · show (sortBy _ (uniqueFirst (df.filterMap fun r => r.main_genre))).Nodup
    exact ((sortBy_perm _ _).nodup_iff).mpr
      (nodup_uniqueFirst (df.filterMap fun r => r.main_genre))
  · intro g
    show g ∈ sortBy _ (uniqueFirst (df.filterMap fun r => r.main_genre)) ↔ _
    rw [mem_sortBy, mem_uniqueFirst, List.mem_filterMap]
  · intro g hg r hr
    rw [mem_genreFilter_eq df g r hr hg]
    simp

theorem main_genres_spec_witness :
    ("Drama" ∈ (main_genres
        [⟨"A", some "Drama", 2001, 8, none, none, none⟩,
         ⟨"B", none, 2002, 7, none, none, none⟩]).tail ↔
      ∃ r ∈ [⟨"A", some "Drama", 2001, 8, none, none, none⟩,
             ⟨"B", none, 2002, 7, none, none, none⟩],
        Row.main_genre r = some "Drama") ∧
    (⟨"A", some "Drama", 2001, 8, none, none, none⟩ : Row).main_genre ≠ none ∧
    genreFilter [⟨"A", some "Drama", 2001, 8, none, none, none⟩,
                 ⟨"B", none, 2002, 7, none, none, none⟩] "All"
      = [⟨"A", some "Drama", 2001, 8, none, none, none⟩,
         ⟨"B", none, 2002, 7, none, none, none⟩] := by
  have h := main_genres_spec
    [⟨"A", some "Drama", 2001, 8, none, none, none⟩,
     ⟨"B", none, 2002, 7, none, none, none⟩]
  refine ⟨h.2.2.2.1 "Drama", ?_, h.2.2.2.2.2⟩
  refine h.2.2.2.2.1 "Drama" (by decide)
    (⟨"A", some "Drama", 2001, 8, none, none, none⟩ : Row) ?_
  decide

/-! ## Claim theorems: top-10 extractor -/

theorem ratingDescLe_total (a b : Row) :
    ratingDescLe a b = true ∨ ratingDescLe b a = true := by
  unfold ratingDescLe
  rcases le_total b.rating a.rating with h | h
  · exact Or.inl (decide_eq_true h)
  · exact Or.inr (decide_eq_true h)

theorem ratingDescLe_trans (a b c : Row)
    (hab : ratingDescLe a b = true) (hbc : ratingDescLe b c = true) :
    ratingDescLe a c = true :=
  decide_eq_true (le_trans (of_decide_eq_true hbc) (of_decide_eq_true hab))

/-- C6: the top-10 extractor (`nlargest(10, 'rating')`, a stable
descending sort truncated to 10) returns `min 10 n` rows of the view,
sorted by descending rating; every returned row's rating is at least the
rating of every row left out; rows of equal rating keep their original
relative order (stability); and when the view has at most 10 rows the
result is all of them. -/
theorem top10_spec (df : List Row) (h : df ≠ []) :
    (top10 df).length = min 10 df.length ∧
    (∀ r ∈ top10 df, r ∈ df) ∧
    List.Pairwise (fun a b : Row => b.rating ≤ a.rating) (top10 df) ∧
    (∀ r ∈ top10 df, ∀ s ∈ (sortBy ratingDescLe df).drop 10, s.rating ≤ r.rating) ∧
    (sortBy ratingDescLe df).Perm df ∧
    (∀ q : ℚ, (sortBy ratingDescLe df).filter (fun r => r.rating = q)
        = df.filter (fun r => r.rating = q)) ∧
    (df.length ≤ 10 → (top10 df).Perm df) := by
  have hall : List.Pairwise (fun a b : Row => b.rating ≤ a.rating) (sortBy ratingDescLe df) :=
    (sortBy_pairwise ratingDescLe ratingDescLe_total ratingDescLe_trans df).imp
      fun hx => of_decide_eq_true hx
  refine ⟨?_, ?_, ?_, ?_, sortBy_perm ratingDescLe df, ?_, ?_⟩
  · show ((sortBy ratingDescLe df).take 10).length = _
    rw [List.length_take, length_sortBy]
  · intro r hr
    exact (mem_sortBy ratingDescLe r df).mp (List.mem_of_mem_take hr)
  · exact hall.sublist (List.take_sublist 10 _)
  · intro r hr s hs
    have hsplit := hall
    rw [← List.take_append_drop 10 (sortBy ratingDescLe df)] at hsplit
    exact (List.pairwise_append.mp hsplit).2.2 r hr s hs
  · intro q
    apply sortBy_filter_stable
    intro x y hx hxy
    have hq : x.rating = q := of_decide_eq_true hx
    have hyx : ¬ (y.rating ≤ x.rating) := of_decide_eq_false hxy
    have hlt : x.rating < y.rating := not_le.mp hyx
    apply decide_eq_false
    intro hc
    rw [hc, hq] at hlt
    exact lt_irrefl q hlt
  · intro hlen
    show ((sortBy ratingDescLe df).take 10).Perm df
    rw [List.take_of_length_le (by rw [length_sortBy]; exact hlen)]
    exact sortBy_perm ratingDescLe df

theorem top10_spec_witness :
    ([⟨"a", none, 0, 5, none, none, none⟩, ⟨"b", none, 0, 9, none, none, none⟩,
      ⟨"c", none, 0, 5, none, none, none⟩] : List Row) ≠ [] ∧
    (top10 [⟨"a", none, 0, 5, none, none, none⟩, ⟨"b", none, 0, 9, none, none, none⟩,
      ⟨"c", none, 0, 5, none, none, none⟩]).length
      = min 10 ([⟨"a", none, 0, 5, none, none, none⟩, ⟨"b", none, 0, 9, none, none, none⟩,
      ⟨"c", none, 0, 5, none, none, none⟩] : List Row).length ∧
    (top10 [⟨"a", none, 0, 5, none, none, none⟩, ⟨"b", none, 0, 9, none, none, none⟩,
      ⟨"c", none, 0, 5, none, none, none⟩]).Perm
      [⟨"a", none, 0, 5, none, none, none⟩, ⟨"b", none, 0, 9, none, none, none⟩,
       ⟨"c", none, 0, 5, none, none, none⟩] := by
  have h := top10_spec [⟨"a", none, 0, 5, none, none, none⟩,
    ⟨"b", none, 0, 9, none, none, none⟩, ⟨"c", none, 0, 5, none, none, none⟩] (by decide)
  exact ⟨by decide, h.1, h.2.2.2.2.2.2 (by decide)⟩

/-! ## Claim theorems: yearly mean rating -/

theorem year_keys_sorted_nodup (df : List Row) :
    List.Pairwise (fun a b : Int => a < b) (year_keys df) := by
  unfold year_keys
  have hle := sortBy_pairwise (fun a b : Int => decide (a ≤ b))
    (fun a b => by
      rcases le_total a b with h | h
      · exact Or.inl (decide_eq_true h)
      · exact Or.inr (decide_eq_true h))
    (fun a b c hab hbc =>
      decide_eq_true (le_trans (of_decide_eq_true hab) (of_decide_eq_true hbc)))
    (uniqueFirst (df.map fun r => r.year))
  have hnd : List.Pairwise (fun a b : Int => a ≠ b)
      (sortBy (fun a b : Int => decide (a ≤ b)) (uniqueFirst (df.map fun r => r.year))) :=
    ((sortBy_perm _ _).nodup_iff).mpr (nodup_uniqueFirst (df.map fun r => r.year))
  exact (hle.and hnd).imp fun hx => lt_of_le_of_ne (of_decide_eq_true hx.1) hx.2

theorem mem_year_keys (df : List Row) (y : Int) :
    y ∈ year_keys df ↔ ∃ r ∈ df, r.year = y := by
  unfold year_keys
  rw [mem_sortBy, mem_uniqueFirst, List.mem_map]

/-- C7: the yearly-mean derivation (`groupby('year')['rating'].mean()`)
produces points with strictly ascending year keys, one key exactly for
each distinct year present in the view, each point's value being the
arithmetic mean of that year's ratings; the spec's worked example holds. -/
theorem year_avg_spec (df : List Row) (h : df ≠ []) :
    List.Pairwise (fun a b : Int × ℚ => a.1 < b.1) (year_avg df) ∧
    (∀ y : Int, (∃ m, (y, m) ∈ year_avg df) ↔ ∃ r ∈ df, r.year = y) ∧
    (∀ p ∈ year_avg df,
      p.2 = mean ((df.filter fun r => r.year = p.1).map fun r => r.rating)) ∧
    year_avg [⟨"a", none, 2000, 8, none, none, none⟩, ⟨"b", none, 2000, 6, none, none, none⟩,
        ⟨"c", none, 2001, 9, none, none, none⟩]
      = [(2000, 7), (2001, 9)] := by
  refine ⟨?_, ?_, ?_, ?_⟩
  · unfold year_avg
    rw [List.pairwise_map]
    exact year_keys_sorted_nodup df
  · intro y
    rw [← mem_year_keys df y]
    constructor
    · rintro ⟨m, hm⟩
      unfold year_avg at hm
      rcases List.mem_map.mp hm with ⟨k, hk, hkm⟩
      have : k = y := congrArg Prod.fst hkm
      rwa [this] at hk
    · intro hy
      exact ⟨_, List.mem_map_of_mem _ hy⟩
  · intro p hp
    unfold year_avg at hp
    rcases List.mem_map.mp hp with ⟨k, _, hkp⟩
    rw [← hkp]
  · have hrfl : year_avg [⟨"a", none, 2000, 8, none, none, none⟩,
        ⟨"b", none, 2000, 6, none, none, none⟩, ⟨"c", none, 2001, 9, none, none, none⟩]
        = [(2000, ((8 : ℚ) + ((6 : ℚ) + 0)) / ((2 : ℕ) : ℚ)),
           (2001, ((9 : ℚ) + 0) / ((1 : ℕ) : ℚ))] := rfl
    rw [hrfl]
    norm_num

theorem year_avg_spec_witness :
    ([⟨"a", none, 2000, 8, none, none, none⟩, ⟨"b", none, 2000, 6, none, none, none⟩,
      ⟨"c", none, 2001, 9, none, none, none⟩] : List Row) ≠ [] ∧
    year_avg [⟨"a", none, 2000, 8, none, none, none⟩, ⟨"b", none, 2000, 6, none, none, none⟩,
        ⟨"c", none, 2001, 9, none, none, none⟩]
      = [(2000, 7), (2001, 9)] := by
  refine ⟨by decide, ?_⟩
  exact (year_avg_spec [⟨"a", none, 2000, 8, none, none, none⟩,
    ⟨"b", none, 2000, 6, none, none, none⟩,
    ⟨"c", none, 2001, 9, none, none, none⟩] (by decide)).2.2.2

/-! ## Claim theorems: schema gaps and empty views -/

/-- C2 fails on the code: the claim says the absence of any expected
column never propagates an error, but the censor-group derivation on
app.py line 69 (`df_filtered['censor'].apply(clean_censor)`) runs without
a column-presence guard, so a table with no censor column makes the run
raise `KeyError` before any chart.  Evaluating the pipeline on such a
table (all other columns present, genre filter on its sentinel, year range
containing the row) yields the error case. -/
theorem pipeline_missing_censor_raises :
    pipeline ⟨true, true, true, true, true, true, false⟩
        [⟨"A", some "Drama", 2001, 8, none, none, none⟩] ⟨"All", 2000, 2005⟩
      = Except.error "KeyError: censor" := rfl

/-- C8: whenever the filtered view is empty (and the censor column is
present, so that the line-69 derivation itself goes through), every one of
the five chart derivations is guarded by `len(df_filtered) > 0` and comes
out absent, and the derived censor-group column is empty; no error
occurs (the pipeline returns a value). -/
theorem empty_view_charts (sc : Schema) (df : List Row) (fs : FilterState)
    (hc : sc.censor = true) (h : applyFilters sc df fs = []) :
    pipeline sc df fs = Except.ok ⟨[], none, none, none, none, none⟩ := by
  unfold pipeline
  rw [h, hc]
  simp

theorem empty_view_charts_witness :
    pipeline ⟨true, true, true, true, true, true, true⟩
        [⟨"A", some "Drama", 2001, 8, none, none, none⟩] ⟨"All", 3000, 3000⟩
      = Except.ok ⟨[], none, none, none, none, none⟩ :=
  empty_view_charts ⟨true, true, true, true, true, true, true⟩
    [⟨"A", some "Drama", 2001, 8, none, none, none⟩] ⟨"All", 3000, 3000⟩
    rfl (by decide)
